import Mathlib

/-!
Verification of the task persistence and mutation layer of the
leanstacks/lambda-starter repository (a minimal task-tracking CRUD service
backed by a single-table key-value store).

The embedding follows `src/services/task-service.ts` closely: the DynamoDB
table is modelled as a list of stored records keyed by the partition key
`pk`; `randomUUID()` and `new Date().toISOString()` are modelled as explicit
`id` / `now` parameters, since the service treats both as opaque strings.
The DynamoDB primitives (unconditional put, conditional update with
SET/REMOVE, conditional delete, point get, scan) are modelled at the level
of their documented effect on the table.

The model file `src/models/task.ts` (the `Task` / `TaskItem` types,
`TaskKeys.pk`, `toTask`) and the DTO schema files are not present in the
source tree — only their tests and callers are — so those definitions are
modelled from the specification and from the expectations in the test
files, as marked in the doc comments.
-/

set_option autoImplicit false

namespace LambdaStarter

/-- Modelled from the spec: the externally visible `Task` shape defined by
the missing `src/models/task.ts` (fields per spec section 3 and the service
tests): `id`, `title`, optional `detail` and `dueAt`, `isComplete`,
`createdAt`, `updatedAt`. Optional fields are `Option` because they are
either present with a value or entirely absent from the record. -/
structure Task where
  id : String
  title : String
  detail : Option String
  dueAt : Option String
  isComplete : Bool
  createdAt : String
  updatedAt : String
deriving DecidableEq

/-- Modelled from the spec: the stored record shape (`TaskItem` in the
missing `src/models/task.ts`): identical to `Task` plus the derived
partition key attribute `pk`. -/
structure TaskItem where
  pk : String
  id : String
  title : String
  detail : Option String
  dueAt : Option String
  isComplete : Bool
  createdAt : String
  updatedAt : String
deriving DecidableEq

namespace TaskKeys

/-- Modelled from the spec: key derivation (`TaskKeys.pk` in the missing
`src/models/task.ts`): a fixed prefix concatenated with the task id,
`TASK#<id>`, as confirmed by the service tests which expect
`pk: 'TASK#123e4567-...'`. -/
def pk (id : String) : String := "TASK#" ++ id

end TaskKeys

/-- Modelled from the spec: the record codec direction `toTask` of the
missing `src/models/task.ts`: copies every field of the stored record
except the store-internal key attribute `pk`, which is dropped (the
service tests assert the result has no `pk` property). -/
def toTask (item : TaskItem) : Task :=
  { id := item.id
    title := item.title
    detail := item.detail
    dueAt := item.dueAt
    isComplete := item.isComplete
    createdAt := item.createdAt
    updatedAt := item.updatedAt }

/-- Modelled from the spec: the codec direction `toRecord` (spec section
4.2): produces the stored-record representation of a Task, computing the
partition key from `id` and copying all Task fields. -/
def toRecord (t : Task) : TaskItem :=
  { pk := TaskKeys.pk t.id
    id := t.id
    title := t.title
    detail := t.detail
    dueAt := t.dueAt
    isComplete := t.isComplete
    createdAt := t.createdAt
    updatedAt := t.updatedAt }

/-- The create-task input DTO (`CreateTaskDto`): `title` required,
`detail` and `dueAt` optional, `isComplete` optional (the service applies
`?? false` when it is absent). -/
structure CreateTaskDto where
  title : String
  detail : Option String
  dueAt : Option String
  isComplete : Option Bool
deriving DecidableEq

/-- The update-task input DTO (`UpdateTaskDto`): `title` and `isComplete`
required, `detail` and `dueAt` optional (omission means "remove"). -/
structure UpdateTaskDto where
  title : String
  detail : Option String
  dueAt : Option String
  isComplete : Bool
deriving DecidableEq

/-- Modelled from the spec: the validation bound on `detail` in the zod
schemas (`z.string().max(1000).optional()`): any string of at most 1000
characters is accepted; there is no lower bound, so the empty string
passes validation. -/
def detailAccepted (d : String) : Bool := d.length ≤ 1000

/-- Tail of a fractional-second part after its first digit: zero or
more further digits, then the literal `Z` terminator. -/
def tailFracZ : List Char → Bool
  | ['Z'] => true
  | c :: rest => c.isDigit && tailFracZ rest
  | [] => false

/-- What may follow the seconds field of the timestamp: either the
literal `Z` directly, or a dot, at least one digit, and then `Z`. -/
def secondsTail : List Char → Bool
  | ['Z'] => true
  | '.' :: c :: rest => c.isDigit && tailFracZ rest
  | _ => false

/-- The validation check on `dueAt` in the zod schemas
(`z.iso.datetime(...)`, `src/unnamed/part_014`), modelled as an
over-approximation: this checks only the fixed skeleton
`dddd-dd-ddTdd:dd:dd` followed by `Z` or `.d...dZ` (digits in the
numeric positions, the literal separators in theirs), without the
month/day range and leap-year constraints of the exact zod regex.
Every string the schema accepts passes this check, so a string this
check rejects — such as the empty string — is rejected by the schema. -/
def dueAtAccepted (s : String) : Bool :=
  match s.data with
  | y1 :: y2 :: y3 :: y4 :: '-' :: m1 :: m2 :: '-' :: d1 :: d2 :: 'T' ::
      h1 :: h2 :: ':' :: n1 :: n2 :: ':' :: s1 :: s2 :: rest =>
    y1.isDigit && y2.isDigit && y3.isDigit && y4.isDigit &&
    m1.isDigit && m2.isDigit && d1.isDigit && d2.isDigit &&
    h1.isDigit && h2.isDigit && n1.isDigit && n2.isDigit &&
    s1.isDigit && s2.isDigit && secondsTail rest
  | _ => false

/-- The DynamoDB table, as the list of stored records. -/
abbrev Store := List TaskItem

/-- Point lookup by partition key: the record whose `pk` equals the key. -/
def getItem (store : Store) (key : String) : Option TaskItem :=
  List.find? (fun it => it.pk == key) store

/-- Unconditional put by partition key: replaces any record with the same
`pk` and inserts the item. -/
def putItem (store : Store) (item : TaskItem) : Store :=
  List.filter (fun it => it.pk != item.pk) store ++ [item]

/-- Conditional delete by partition key: removes the record with that
`pk`. -/
def removeItem (store : Store) (key : String) : Store :=
  List.filter (fun it => it.pk != key) store

/-- JavaScript truthiness on an optional string, as used by the
conditional spread on `createTaskDto.detail` and `createTaskDto.dueAt`
in `createTask`: the attribute is included only when the value is
present and not the empty string (the empty string is falsy in
JavaScript). -/
def presentIfTruthy (s : Option String) : Option String :=
  match s with
  | some d => if d = "" then none else some d
  | none => none

/-- `listTasks` from `src/services/task-service.ts`: the scan response
items (`response.Items`, possibly absent) are defaulted to the empty list
by `?? []` and mapped through `toTask`. -/
def listTasks (items : Option (List TaskItem)) : List Task :=
  (items.getD []).map toTask

/-- The scan response for a store: all records. -/
def scanStore (store : Store) : Option (List TaskItem) := some store

/-- `getTask` from `src/services/task-service.ts`: point get by the
derived key; `null` when the item is absent, otherwise `toTask` of the
item. -/
def getTask (store : Store) (id : String) : Option Task :=
  (getItem store (TaskKeys.pk id)).map toTask

/-- `createTask` from `src/services/task-service.ts`, with the generated
UUID and the current timestamp as explicit parameters. Builds the item
(including `detail` / `dueAt` only when truthy, `isComplete ?? false`,
`createdAt = updatedAt = now`), performs an unconditional put, and
returns `toTask` of the item together with the new store state.
`mkTaskItem` is the `taskItem` object literal built inside `createTask`,
named at top level so the proofs can refer to it. -/
def mkTaskItem (id now : String) (dto : CreateTaskDto) : TaskItem :=
  { pk := TaskKeys.pk id
    id := id
    title := dto.title
    detail := presentIfTruthy dto.detail
    dueAt := presentIfTruthy dto.dueAt
    isComplete := dto.isComplete.getD false
    createdAt := now
    updatedAt := now }

/-- The body of `createTask`: builds the task item, writes it with an
unconditional put, and returns the decoded item with the new store. -/
def createTask (store : Store) (id now : String) (dto : CreateTaskDto) :
    Task × Store :=
  let taskItem : TaskItem := mkTaskItem id now dto
  (toTask taskItem, putItem store taskItem)

/-- `updateTask` from `src/services/task-service.ts`, with the current
timestamp as an explicit parameter. The update is conditioned on
`attribute_exists(pk)`: when the record is absent the conditional check
fails and the function returns `null` with the store untouched. When it
exists, the update expression always SETs `title`, `isComplete`,
`updatedAt`; it SETs `detail` when `dto.detail !== undefined` (including
the empty string) and REMOVEs it otherwise, and the same for `dueAt`;
with `ReturnValues: ALL_NEW` the full post-update record is returned
through `toTask`. -/
def updateTask (store : Store) (id now : String) (dto : UpdateTaskDto) :
    Option Task × Store :=
  match getItem store (TaskKeys.pk id) with
  | none => (none, store)
  | some old =>
    let newItem : TaskItem :=
      { old with
          title := dto.title
          detail := dto.detail
          dueAt := dto.dueAt
          isComplete := dto.isComplete
          updatedAt := now }
    (some (toTask newItem), putItem store newItem)

/-- `deleteTask` from `src/services/task-service.ts`: conditioned on
`attribute_exists(pk)`; returns `false` with the store untouched when the
record is absent, otherwise removes it and returns `true`. -/
def deleteTask (store : Store) (id : String) : Bool × Store :=
  match getItem store (TaskKeys.pk id) with
  | none => (false, store)
  | some _ => (true, removeItem store (TaskKeys.pk id))

/-- A sequence of creates: folds `createTask` over a list of
(generated id, timestamp, input) triples, threading the store. -/
def createMany (store : Store) (l : List (String × String × CreateTaskDto)) :
    Store :=
  l.foldl (fun st c => (createTask st c.1 c.2.1 c.2.2).2) store

/-- A concrete stored record, used by the closed witness statements. -/
def itemA : TaskItem :=
  { pk := "TASK#a"
    id := "a"
    title := "Task one"
    detail := some "first detail"
    dueAt := some "2025-12-31T23:59:59.000Z"
    isComplete := false
    createdAt := "2025-11-01T10:00:00.000Z"
    updatedAt := "2025-11-01T10:00:00.000Z" }

/-- A concrete update input, used by the closed witness statements. -/
def dtoU : UpdateTaskDto :=
  { title := "Task one updated"
    detail := none
    dueAt := none
    isComplete := true }

/-- A concrete create input, used by the closed witness statements. -/
def dtoC : CreateTaskDto :=
  { title := "Buy milk"
    detail := none
    dueAt := none
    isComplete := none }

/-! ### Store primitive lemmas -/

/-- A point lookup that succeeds returns a record whose `pk` is the
queried key. -/
theorem getItem_eq_some_pk {store : Store} {k : String} {it : TaskItem}
    (h : getItem store k = some it) : it.pk = k := by
  have hp := List.find?_some h
  exact eq_of_beq hp

/-- Filtering out one partition key does not change lookups of a
different key. -/
theorem find?_filter_key (l : List TaskItem) (kRem kGet : String)
    (h : kGet ≠ kRem) :
    List.find? (fun it => it.pk == kGet)
      (List.filter (fun it => it.pk != kRem) l) =
    List.find? (fun it => it.pk == kGet) l := by
  rw [List.find?_filter]
  congr 1
  funext a
  by_cases hg : a.pk = kGet
  · simp [hg, h]
  · simp [hg]

/-- After a put, looking up the written key returns the written item. -/
theorem getItem_putItem_pk (store : Store) (item : TaskItem) (k : String)
    (hk : k = item.pk) : getItem (putItem store item) k = some item := by
  subst hk
  unfold getItem putItem
  rw [List.find?_append]
  have h1 : List.find? (fun it => it.pk == item.pk)
      (List.filter (fun it => it.pk != item.pk) store) = none := by
    rw [List.find?_eq_none]
    intro x hx
    have hmem := (List.mem_filter.mp hx).2
    simpa using hmem
  rw [h1]
  simp [List.find?]

/-- After a put, lookups of any other key are unchanged. -/
theorem getItem_putItem_ne (store : Store) (item : TaskItem) (k : String)
    (h : k ≠ item.pk) : getItem (putItem store item) k = getItem store k := by
  unfold getItem putItem
  rw [List.find?_append]
  have h2 : List.find? (fun it => it.pk == k) [item] = none := by
    rw [List.find?_eq_none]
    intro x hx
    rw [List.mem_singleton.mp hx]
    simp
    exact Ne.symm h
  rw [h2, find?_filter_key store item.pk k h]
  cases List.find? (fun it => it.pk == k) store <;> rfl

/-- After a remove, looking up the removed key finds nothing. -/
theorem getItem_removeItem_eq (store : Store) (k : String) :
    getItem (removeItem store k) k = none := by
  unfold getItem removeItem
  rw [List.find?_eq_none]
  intro x hx
  have hmem := (List.mem_filter.mp hx).2
  simpa using hmem

/-- After a remove, lookups of any other key are unchanged. -/
theorem getItem_removeItem_ne (store : Store) (k k' : String)
    (h : k' ≠ k) : getItem (removeItem store k) k' = getItem store k' := by
  unfold getItem removeItem
  exact find?_filter_key store k k' h

/-- A put of a fresh key grows the store by exactly one record. -/
theorem length_putItem_fresh (store : Store) (item : TaskItem)
    (h : getItem store item.pk = none) :
    (putItem store item).length = store.length + 1 := by
  unfold putItem
  have heq : List.filter (fun it => it.pk != item.pk) store = store := by
    rw [List.filter_eq_self]
    intro x hx
    have hne := List.find?_eq_none.mp h x hx
    simpa using hne
  rw [heq]
  simp

/-- The derived key determines the id: concatenation after a fixed
string is injective. -/
theorem pk_inj {id1 id2 : String} (h : TaskKeys.pk id1 = TaskKeys.pk id2) :
    id1 = id2 := by
  have hd := congrArg String.data h
  simp only [TaskKeys.pk, String.data_append] at hd
  exact String.ext (List.append_cancel_left hd)

/-- Computation rule for `updateTask` when the record exists: the
conditional check passes and the update yields the post-update record,
both as the returned Task and in the store. -/
theorem updateTask_eq_of_getItem_some
    (store : Store) (id now : String) (dto : UpdateTaskDto) (old : TaskItem)
    (h : getItem store (TaskKeys.pk id) = some old) :
    updateTask store id now dto =
      (some { id := old.id, title := dto.title, detail := dto.detail,
              dueAt := dto.dueAt, isComplete := dto.isComplete,
              createdAt := old.createdAt, updatedAt := now },
       putItem store
         { old with title := dto.title, detail := dto.detail,
                    dueAt := dto.dueAt, isComplete := dto.isComplete,
                    updatedAt := now }) := by
  unfold updateTask
  rw [h]
  rfl

/-- A sequence of creates whose generated ids are fresh for the store
and pairwise distinct grows the store by one record per create. -/
theorem createMany_length (l : List (String × String × CreateTaskDto)) :
    ∀ store : Store,
      (∀ c ∈ l, getItem store (TaskKeys.pk c.1) = none) →
      (l.map (fun c => c.1)).Nodup →
      (createMany store l).length = store.length + l.length := by
  induction l with
  | nil =>
    intro store _ _
    rfl
  | cons c cs ih =>
    intro store hfresh hnodup
    rw [List.map_cons, List.nodup_cons] at hnodup
    have hfc : getItem store (TaskKeys.pk c.1) = none :=
      hfresh c (List.mem_cons_self c cs)
    have hf1 : ∀ c' ∈ cs,
        getItem (putItem store (mkTaskItem c.1 c.2.1 c.2.2))
          (TaskKeys.pk c'.1) = none := by
      intro c' hc'
      have hne : TaskKeys.pk c'.1 ≠ TaskKeys.pk c.1 := by
        intro he
        exact hnodup.1 (pk_inj he ▸ List.mem_map_of_mem (fun c => c.1) hc')
      rw [getItem_putItem_ne store (mkTaskItem c.1 c.2.1 c.2.2)
        (TaskKeys.pk c'.1) hne]
      exact hfresh c' (List.mem_cons_of_mem c hc')
    show (createMany (putItem store (mkTaskItem c.1 c.2.1 c.2.2)) cs).length =
      store.length + (c :: cs).length
    rw [ih (putItem store (mkTaskItem c.1 c.2.1 c.2.2)) hf1 hnodup.2,
      length_putItem_fresh store (mkTaskItem c.1 c.2.1 c.2.2) hfc]
    simp only [List.length_cons]
    omega

/-! ### Claim theorems -/

/-- C1: for every update input, `updateTask` on an existing record always
rewrites `title` and `isComplete` to the provided values and rewrites
`updatedAt` to the new timestamp; `detail` is set to the provided value
when present in the input and removed from the stored record when
omitted (even if previously present), with `dueAt` following the same
remove-if-omitted semantics; on success it returns the full post-update
Task (the decoded stored record). -/
theorem updateTask_existing_semantics
    (store : Store) (id now : String) (dto : UpdateTaskDto) (old : TaskItem)
    (h : getItem store (TaskKeys.pk id) = some old) :
    updateTask store id now dto =
      (some { id := old.id, title := dto.title, detail := dto.detail,
              dueAt := dto.dueAt, isComplete := dto.isComplete,
              createdAt := old.createdAt, updatedAt := now },
       putItem store
         { old with title := dto.title, detail := dto.detail,
                    dueAt := dto.dueAt, isComplete := dto.isComplete,
                    updatedAt := now }) :=
  updateTask_eq_of_getItem_some store id now dto old h

/-- Witness for C1: a concrete store holding one record, updated with an
input that provides neither `detail` nor `dueAt`, so both are removed. -/
theorem updateTask_existing_semantics_witness :
    updateTask [itemA] "a" "2025-11-02T10:00:00.000Z" dtoU =
      (some { id := itemA.id, title := dtoU.title, detail := dtoU.detail,
              dueAt := dtoU.dueAt, isComplete := dtoU.isComplete,
              createdAt := itemA.createdAt,
              updatedAt := "2025-11-02T10:00:00.000Z" },
       putItem [itemA]
         { itemA with title := dtoU.title, detail := dtoU.detail,
                      dueAt := dtoU.dueAt, isComplete := dtoU.isComplete,
                      updatedAt := "2025-11-02T10:00:00.000Z" }) :=
  updateTask_existing_semantics [itemA] "a" "2025-11-02T10:00:00.000Z" dtoU
    itemA (by decide)

/-- C2: `updateTask` called with an id for which no record exists returns
the explicit not-found result (`none`) rather than an exception, and
performs no store mutation: the store state is returned unchanged. -/
theorem updateTask_missing_not_found
    (store : Store) (id now : String) (dto : UpdateTaskDto)
    (h : getItem store (TaskKeys.pk id) = none) :
    updateTask store id now dto = (none, store) := by
  unfold updateTask
  rw [h]

/-- Witness for C2 at the empty store. -/
theorem updateTask_missing_not_found_witness :
    updateTask [] "a" "2025-11-02T10:00:00.000Z" dtoU = (none, []) :=
  updateTask_missing_not_found [] "a" "2025-11-02T10:00:00.000Z" dtoU rfl

/-- C5: round-trip of the record codec: for every valid Task `t`,
encoding to a stored record (which adds the derived partition key) and
decoding back (which strips the store-internal key attribute) yields a
Task equal to `t`, for all values of the optional fields. -/
theorem toTask_toRecord_roundtrip (t : Task) : toTask (toRecord t) = t := rfl

/-- C6: key derivation is a pure deterministic function of the task id
(equal ids give equal keys) and injective (distinct ids give distinct
keys), by construction as a fixed prefix concatenated with the id. -/
theorem taskKeys_pk_deterministic_injective (id1 id2 : String) :
    TaskKeys.pk id1 = TaskKeys.pk id2 ↔ id1 = id2 :=
  ⟨pk_inj, fun h => by rw [h]⟩

/-- C3: `deleteTask` called with an id for which no record exists
returns `false` (an explicit not-deleted signal, not an exception) and
performs no store mutation; called with an id whose record exists, it
returns `true` and permanently removes that record, leaving every other
key unchanged. -/
theorem deleteTask_semantics (store : Store) (id : String) :
    (getItem store (TaskKeys.pk id) = none →
      deleteTask store id = (false, store)) ∧
    (∀ old : TaskItem, getItem store (TaskKeys.pk id) = some old →
      (deleteTask store id).1 = true ∧
      getItem (deleteTask store id).2 (TaskKeys.pk id) = none ∧
      ∀ k, k ≠ TaskKeys.pk id →
        getItem (deleteTask store id).2 k = getItem store k) := by
  constructor
  · intro h
    unfold deleteTask
    rw [h]
  · intro old h
    have hsnd : (deleteTask store id).2 = removeItem store (TaskKeys.pk id) := by
      unfold deleteTask
      rw [h]
    have hfst : (deleteTask store id).1 = true := by
      unfold deleteTask
      rw [h]
    refine ⟨hfst, ?_, ?_⟩
    · rw [hsnd]
      exact getItem_removeItem_eq store (TaskKeys.pk id)
    · intro k hk
      rw [hsnd]
      exact getItem_removeItem_ne store (TaskKeys.pk id) k hk

/-- Witness for C3: deletion misses on the empty store and hits on a
store holding the record, removing it and leaving another key alone. -/
theorem deleteTask_semantics_witness :
    deleteTask [] "a" = (false, []) ∧
    (deleteTask [itemA] "a").1 = true ∧
    getItem (deleteTask [itemA] "a").2 (TaskKeys.pk "a") = none ∧
    getItem (deleteTask [itemA] "a").2 "TASK#b" = getItem [itemA] "TASK#b" := by
  have h2 := (deleteTask_semantics [itemA] "a").2 itemA (by decide)
  exact ⟨(deleteTask_semantics [] "a").1 rfl, h2.1, h2.2.1,
    h2.2.2 "TASK#b" (by decide)⟩

/-- C4: for every create input, `createTask` returns a Task carrying the
generated id, stamps `createdAt` and `updatedAt` to the same current
timestamp, defaults `isComplete` to `false` when not provided, omits
`detail` and `dueAt` entirely when absent from the input, and performs
an unconditional write of the created Task's record against any store
state, with no existence guard. -/
theorem createTask_semantics (store : Store) (id now : String)
    (dto : CreateTaskDto) :
    (createTask store id now dto).1.id = id ∧
    (createTask store id now dto).1.title = dto.title ∧
    (createTask store id now dto).1.createdAt = now ∧
    (createTask store id now dto).1.updatedAt = now ∧
    (dto.isComplete = none →
      (createTask store id now dto).1.isComplete = false) ∧
    (dto.detail = none → (createTask store id now dto).1.detail = none) ∧
    (dto.dueAt = none → (createTask store id now dto).1.dueAt = none) ∧
    (createTask store id now dto).2 =
      putItem store (toRecord (createTask store id now dto).1) := by
  refine ⟨rfl, rfl, rfl, rfl, ?_, ?_, ?_, rfl⟩
  · intro h
    simp [createTask, mkTaskItem, toTask, h]
  · intro h
    simp [createTask, mkTaskItem, toTask, presentIfTruthy, h]
  · intro h
    simp [createTask, mkTaskItem, toTask, presentIfTruthy, h]

/-- Witness for C4: creating from input with all optional fields absent
yields `isComplete = false`, no `detail`, no `dueAt`, and equal
creation and update stamps. -/
theorem createTask_semantics_witness :
    (createTask [] "a" "2025-12-01T10:00:00.000Z" dtoC).1.isComplete = false ∧
    (createTask [] "a" "2025-12-01T10:00:00.000Z" dtoC).1.detail = none ∧
    (createTask [] "a" "2025-12-01T10:00:00.000Z" dtoC).1.dueAt = none ∧
    (createTask [] "a" "2025-12-01T10:00:00.000Z" dtoC).1.createdAt =
      (createTask [] "a" "2025-12-01T10:00:00.000Z" dtoC).1.updatedAt := by
  have h := createTask_semantics [] "a" "2025-12-01T10:00:00.000Z" dtoC
  exact ⟨h.2.2.2.2.1 rfl, h.2.2.2.2.2.1 rfl, h.2.2.2.2.2.2.1 rfl,
    h.2.2.1.trans h.2.2.2.1.symm⟩

/-- C7: for any create input, `getTask` with the id of the Task returned
by `createTask`, on the post-create store with no intervening
operations on that id, returns a Task equal to the Task `createTask`
returned. -/
theorem create_then_get (store : Store) (id now : String)
    (dto : CreateTaskDto) :
    getTask (createTask store id now dto).2 id =
      some (createTask store id now dto).1 := by
  show (getItem (createTask store id now dto).2 (TaskKeys.pk id)).map toTask =
    some (createTask store id now dto).1
  rw [show (createTask store id now dto).2 =
      putItem store (mkTaskItem id now dto) from rfl,
    getItem_putItem_pk store (mkTaskItem id now dto) (TaskKeys.pk id) rfl]
  rfl

/-- C8: `listTasks` returns the empty sequence when the scan response
carries no items attribute at all and when the store is empty; after `n`
successful creates with pairwise-distinct generated ids and no deletes,
it returns exactly `n` tasks. -/
theorem listTasks_empty_and_count :
    listTasks none = [] ∧
    listTasks (scanStore []) = [] ∧
    ∀ l : List (String × String × CreateTaskDto),
      (l.map (fun c => c.1)).Nodup →
      (listTasks (scanStore (createMany [] l))).length = l.length := by
  refine ⟨rfl, rfl, ?_⟩
  intro l hnodup
  show ((createMany [] l).map toTask).length = l.length
  rw [List.length_map]
  have h := createMany_length l [] (fun c _ => rfl) hnodup
  simpa using h

/-- Witness for C8: the two empty cases, and two creates with distinct
generated ids listing exactly two tasks. -/
theorem listTasks_empty_and_count_witness :
    listTasks none = [] ∧
    listTasks (scanStore []) = [] ∧
    (listTasks (scanStore (createMany []
      [("a", "2025-12-01T10:00:00.000Z", dtoC),
       ("b", "2025-12-01T10:05:00.000Z", dtoC)]))).length = 2 := by
  have h := listTasks_empty_and_count
  exact ⟨h.1, h.2.1, h.2.2
    [("a", "2025-12-01T10:00:00.000Z", dtoC),
     ("b", "2025-12-01T10:05:00.000Z", dtoC)] (by decide)⟩

/-- C9: a successful `updateTask` leaves the partition key, `id` and
`createdAt` of the stored record untouched — so `createdAt` never
changes after creation — and leaves the record under every other key
unchanged. -/
theorem updateTask_frame (store : Store) (id now : String)
    (dto : UpdateTaskDto) (old : TaskItem)
    (h : getItem store (TaskKeys.pk id) = some old) :
    (∃ newItem : TaskItem,
      getItem (updateTask store id now dto).2 (TaskKeys.pk id) =
        some newItem ∧
      newItem.pk = old.pk ∧ newItem.id = old.id ∧
      newItem.createdAt = old.createdAt) ∧
    ∀ k, k ≠ TaskKeys.pk id →
      getItem (updateTask store id now dto).2 k = getItem store k := by
  have hpk : old.pk = TaskKeys.pk id := getItem_eq_some_pk h
  have hsnd : (updateTask store id now dto).2 =
      putItem store
        { old with
            title := dto.title
            detail := dto.detail
            dueAt := dto.dueAt
            isComplete := dto.isComplete
            updatedAt := now } := by
    rw [updateTask_eq_of_getItem_some store id now dto old h]
  constructor
  · refine ⟨{ old with
        title := dto.title
        detail := dto.detail
        dueAt := dto.dueAt
        isComplete := dto.isComplete
        updatedAt := now },
      ?_, rfl, rfl, rfl⟩
    rw [hsnd]
    exact getItem_putItem_pk store _ (TaskKeys.pk id) hpk.symm
  · intro k hk
    rw [hsnd]
    exact getItem_putItem_ne store _ k
      (fun he => hk ((show k = old.pk from he).trans hpk))

/-- Witness for C9: updating the one stored record preserves its key,
id and creation stamp, and leaves another key's lookup unchanged. -/
theorem updateTask_frame_witness :
    (∃ newItem : TaskItem,
      getItem (updateTask [itemA] "a" "2025-11-02T10:00:00.000Z" dtoU).2
        (TaskKeys.pk "a") = some newItem ∧
      newItem.pk = itemA.pk ∧ newItem.id = itemA.id ∧
      newItem.createdAt = itemA.createdAt) ∧
    getItem (updateTask [itemA] "a" "2025-11-02T10:00:00.000Z" dtoU).2
      "TASK#b" = getItem [itemA] "TASK#b" := by
  have h := updateTask_frame [itemA] "a" "2025-11-02T10:00:00.000Z" dtoU
    itemA (by decide)
  exact ⟨h.1, h.2 "TASK#b" (by decide)⟩

/-- C10 counterexample: the empty string is not "a value the validation
schema accepts" for `dueAt` — the schema's ISO-8601 datetime check
rejects it (shown on `dueAtAccepted`, which accepts every string the
zod regex accepts), while a genuine timestamp passes it and the
`detail` bound does accept the empty string. The claim's
schema-acceptance premise is therefore false on its `dueAt` branch. -/
theorem dueAt_empty_string_not_schema_accepted :
    dueAtAccepted "" = false ∧
    dueAtAccepted "2025-12-31T23:59:59.000Z" = true ∧
    detailAccepted "" = true := by decide

/-- C10 (amended): `createTask` and `updateTask` disagree on
empty-string optional values. The empty string passes the schema bound
on `detail` but not the ISO-8601 check on `dueAt`; at the service
level, for either field, a create input carrying the empty string
stores no such attribute and returns a Task without it (presence is
tested by truthiness), whereas an update input carrying the empty
string sets the attribute to the empty string on the stored record and
in the returned Task (presence is tested against undefined). -/
theorem create_update_empty_string_disagreement_amended :
    detailAccepted "" = true ∧
    dueAtAccepted "" = false ∧
    (∀ (store : Store) (id now ti : String) (du : Option String)
      (c : Option Bool),
      (createTask store id now
        { title := ti, detail := some "", dueAt := du,
          isComplete := c }).1.detail = none) ∧
    (∀ (store : Store) (id now ti : String) (de : Option String)
      (c : Option Bool),
      (createTask store id now
        { title := ti, detail := de, dueAt := some "",
          isComplete := c }).1.dueAt = none) ∧
    (∀ (store : Store) (id now ti : String) (du : Option String) (c : Bool)
      (old : TaskItem), getItem store (TaskKeys.pk id) = some old →
      ((updateTask store id now
        { title := ti, detail := some "", dueAt := du,
          isComplete := c }).1.map Task.detail = some (some "") ∧
      (getItem (updateTask store id now
        { title := ti, detail := some "", dueAt := du,
          isComplete := c }).2 (TaskKeys.pk id)).map TaskItem.detail =
        some (some ""))) ∧
    (∀ (store : Store) (id now ti : String) (de : Option String) (c : Bool)
      (old : TaskItem), getItem store (TaskKeys.pk id) = some old →
      ((updateTask store id now
        { title := ti, detail := de, dueAt := some "",
          isComplete := c }).1.map Task.dueAt = some (some "") ∧
      (getItem (updateTask store id now
        { title := ti, detail := de, dueAt := some "",
          isComplete := c }).2 (TaskKeys.pk id)).map TaskItem.dueAt =
        some (some ""))) := by
  refine ⟨by decide, by decide, fun store id now ti du c => rfl,
    fun store id now ti de c => rfl, ?_, ?_⟩
  · intro store id now ti du c old h
    have hpk : old.pk = TaskKeys.pk id := getItem_eq_some_pk h
    have heq := updateTask_eq_of_getItem_some store id now
      { title := ti, detail := some "", dueAt := du, isComplete := c } old h
    constructor
    · rw [heq]
      rfl
    · have hsnd : (updateTask store id now
          { title := ti, detail := some "", dueAt := du,
            isComplete := c }).2 =
          putItem store
            { old with
                title := ti
                detail := some ""
                dueAt := du
                isComplete := c
                updatedAt := now } := by
        rw [heq]
      rw [hsnd, getItem_putItem_pk store
        { old with
            title := ti
            detail := some ""
            dueAt := du
            isComplete := c
            updatedAt := now }
        (TaskKeys.pk id) hpk.symm]
      rfl
  · intro store id now ti de c old h
    have hpk : old.pk = TaskKeys.pk id := getItem_eq_some_pk h
    have heq := updateTask_eq_of_getItem_some store id now
      { title := ti, detail := de, dueAt := some "", isComplete := c } old h
    constructor
    · rw [heq]
      rfl
    · have hsnd : (updateTask store id now
          { title := ti, detail := de, dueAt := some "",
            isComplete := c }).2 =
          putItem store
            { old with
                title := ti
                detail := de
                dueAt := some ""
                isComplete := c
                updatedAt := now } := by
        rw [heq]
      rw [hsnd, getItem_putItem_pk store
        { old with
            title := ti
            detail := de
            dueAt := some ""
            isComplete := c
            updatedAt := now }
        (TaskKeys.pk id) hpk.symm]
      rfl

/-- Witness for C10 (amended): concrete create inputs with empty-string
`detail` and `dueAt` store neither attribute, while concrete updates on
an existing record store the empty string for each field. -/
theorem create_update_empty_string_disagreement_amended_witness :
    (createTask [] "a" "2025-12-01T10:00:00.000Z"
      { title := "Buy milk", detail := some "", dueAt := none,
        isComplete := none }).1.detail = none ∧
    (createTask [] "a" "2025-12-01T10:00:00.000Z"
      { title := "Buy milk", detail := none, dueAt := some "",
        isComplete := none }).1.dueAt = none ∧
    (updateTask [itemA] "a" "2025-11-02T10:00:00.000Z"
      { title := "Task one", detail := some "", dueAt := none,
        isComplete := true }).1.map Task.detail = some (some "") ∧
    (updateTask [itemA] "a" "2025-11-02T10:00:00.000Z"
      { title := "Task one", detail := none, dueAt := some "",
        isComplete := true }).1.map Task.dueAt = some (some "") := by
  have h := create_update_empty_string_disagreement_amended
  exact ⟨h.2.2.1 [] "a" "2025-12-01T10:00:00.000Z" "Buy milk" none none,
    h.2.2.2.1 [] "a" "2025-12-01T10:00:00.000Z" "Buy milk" none none,
    (h.2.2.2.2.1 [itemA] "a" "2025-11-02T10:00:00.000Z" "Task one" none true
      itemA (by decide)).1,
    (h.2.2.2.2.2 [itemA] "a" "2025-11-02T10:00:00.000Z" "Task one" none true
      itemA (by decide)).1⟩

end LambdaStarter
